import Mathlib

/-!
Shallow embedding of `taiga/base/neighbors.py`.

The module computes the neighbors (previous/next row) of a model instance
inside an ordered, filtered result set, always additionally scoped to the
instance's project, and exposes the result through a serializer mixin.

Modelling choices, each traceable to the source:

* A database table is a `List Record` in the order the query plan yields
  rows; a Django queryset is a filter predicate over that table together
  with a `staticEmpty` flag modelling the compiler raising `EmptyResultSet`
  (a queryset that provably matches zero rows, e.g. `id__in=[]`).
* `obj.project.id` on a record with no project raises `AttributeError`;
  fallible evaluation is `Except PyError`.
* The raw SQL window (`ROW_NUMBER`/`LAG`/`LEAD` over the CTE, then
  `WHERE id = %s`) is `windowRows` followed by `List.find?` with SQL
  equality semantics (`NULL = x` is never true).
* The per-side point lookups `results_set.filter(id=...).first()` are
  `pointLookup`; Django translates `filter(id=None)` into `id IS NULL`,
  so there plain `Option` equality is used.
* Each of the three cursor executions sees the database at its own moment;
  `get_neighborsAt` takes one table state per execution and `get_neighbors`
  is the common case of an unchanged database.
-/

/-- Model instance: a Django model row with primary key `id` (none when the
object is not persisted), an optional project foreign key, and the fields
the neighbor serializer reads (`ref`, `subject`). -/
structure Record where
  id : Option Nat
  projectId : Option Nat
  ref : Nat
  subject : String
deriving DecidableEq, Repr

/-- Result type of `get_neighbors`, the `Neighbor = namedtuple("Neighbor", "left right")`. -/
structure Neighbor where
  left : Option Record
  right : Option Record
deriving DecidableEq, Repr

/-- Django queryset over the `Record` table: a filter predicate plus a flag
recording that the query compiler statically proves the result empty
(`EmptyResultSet` is raised by `compiler.as_sql`). -/
structure QuerySet where
  filt : Record → Bool
  staticEmpty : Bool

/-- Queryset `type(obj).objects.get_queryset()`: no filter, compilable. -/
def defaultQuerySet : QuerySet :=
  { filt := fun _ => true, staticEmpty := false }

/-- Queryset method `.filter(project_id=pid)`: conjoin the project condition.
Comparing against a concrete integer never makes a satisfiable query
statically empty, so the flag is inherited. -/
def QuerySet.filterProject (qs : QuerySet) (pid : Nat) : QuerySet :=
  { filt := fun r => qs.filt r && (r.projectId == some pid), staticEmpty := qs.staticEmpty }

/-- Executing a queryset against the table: the rows, in table order, that
pass the filter. -/
def QuerySet.run (qs : QuerySet) (db : List Record) : List Record :=
  db.filter qs.filt

/-- Lines 30-43 of the source: default the results set when the caller
passed none, narrow it to the target's project, and on `EmptyResultSet`
fall back to a plain project-scoped queryset of the record type. -/
def resultsSetFor (rso : Option QuerySet) (pid : Nat) : QuerySet :=
  let rs := match rso with
    | none => defaultQuerySet
    | some s => s
  let narrowed := rs.filterProject pid
  if narrowed.staticEmpty then defaultQuerySet.filterProject pid else narrowed

/-- Row produced by the window subquery: `"col1" AS id, ROW_NUMBER() OVER(),
LAG("col1", 1) OVER(), LEAD("col1", 1) OVER()`. -/
structure WindowRow where
  id : Option Nat
  rowNum : Nat
  prev : Option Nat
  next : Option Nat
deriving DecidableEq, Repr

/-- SQL `=` between two nullable integers: comparison with `NULL` is never
true (three-valued logic collapses to false in a `WHERE` clause). -/
def sqlEq (a b : Option Nat) : Bool :=
  match a, b with
  | some x, some y => x == y
  | _, _ => false

/-- Window computation over the CTE rows: each row is paired with its row
number and the ids of the previous (`LAG`) and next (`LEAD`) row; at the
boundaries the window functions yield `NULL`. -/
def windowRows (prevId : Option Nat) (n : Nat) : List Record → List WindowRow
  | [] => []
  | r :: rest => ⟨r.id, n, prevId, rest.head?.bind Record.id⟩ :: windowRows r.id (n + 1) rest

/-- ORM point lookup `results_set.filter(id=oid).first()`: first row of the
set whose id matches; Django maps `filter(id=None)` to `id IS NULL`. -/
def pointLookup (rows : List Record) (oid : Option Nat) : Option Record :=
  rows.find? (fun r => r.id == oid)

/-- Lines 45-85 of the source past the compilation step: run the windowed
query (`WHERE id = targetId`, `fetchone`), return `(None, None)` when no row
matches, otherwise point-look-up each neighbor id. The three row lists are
the executions of the results set at the three cursor moments. -/
def lookupCore (rowsW rowsL rowsR : List Record) (targetId : Option Nat) : Neighbor :=
  match (windowRows none 1 rowsW).find? (fun w => sqlEq w.id targetId) with
  | none => ⟨none, none⟩
  | some w => ⟨pointLookup rowsL w.prev, pointLookup rowsR w.next⟩

/-- Python exceptions the embedded code can raise. -/
inductive PyError where
  | attributeError
deriving DecidableEq, Repr

/-- Function `get_neighbors(obj, results_set=None)`, with one database state
per cursor execution (windowed query, left point lookup, right point
lookup). Accessing `obj.project.id` on a project-less record raises. -/
def get_neighborsAt (dbWin dbLeft dbRight : List Record) (obj : Record)
    (rso : Option QuerySet) : Except PyError Neighbor :=
  match obj.projectId with
  | none => .error .attributeError
  | some pid =>
    let rs := resultsSetFor rso pid
    .ok (lookupCore (rs.run dbWin) (rs.run dbLeft) (rs.run dbRight) obj.id)

/-- Function `get_neighbors(obj, results_set=None)` when the database does
not change between the three queries of one invocation. -/
def get_neighbors (db : List Record) (obj : Record) (rso : Option QuerySet) :
    Except PyError Neighbor :=
  get_neighborsAt db db db obj rso

/-- Alias used inside the serializer mixin (the mixin method shadows the
module-level name). -/
def resolveNeighbors : List Record → Record → Option QuerySet → Except PyError Neighbor :=
  get_neighbors

/-- Data produced by `NeighborSerializer`: fields `id`, `ref`, `subject`. -/
structure NeighborData where
  id : Option Nat
  ref : Nat
  subject : String
deriving DecidableEq, Repr

/-- Method `serialize_neighbor`: a truthy record serializes to its summary,
`None` stays `None` (model instances are always truthy). -/
def serialize_neighbor (n : Option Record) : Option NeighborData :=
  n.map (fun r => ⟨r.id, r.ref, r.subject⟩)

/-- Ambient API view: what the mixin needs from it is
`view.filter_queryset(view.get_queryset())`, the already filtered and
permission-scoped queryset. -/
structure ApiView where
  filteredQueryset : QuerySet

/-- Ambient HTTP request; only its presence (truthiness) matters here. -/
structure ApiRequest where
  marker : Unit

/-- Serializer `self.context`: may or may not carry a view and a request. -/
structure SerializerContext where
  view : Option ApiView
  request : Option ApiRequest

/-- Value of the `neighbors` field: `{"previous": ..., "next": ...}`. -/
structure NeighborsDict where
  previous : Option NeighborData
  next : Option NeighborData
deriving DecidableEq, Repr

namespace NeighborsSerializerMixin

/-- Method `NeighborsSerializerMixin.get_neighbors(self, obj)`: with both a
view and a request in context, resolve against the view's filtered queryset
and serialize each side; otherwise both sides are `None` without calling
the resolver. -/
def get_neighbors (db : List Record) (ctx : SerializerContext) (obj : Record) :
    Except PyError NeighborsDict :=
  match ctx.view, ctx.request with
  | some v, some _ =>
    match resolveNeighbors db obj (some v.filteredQueryset) with
    | .error e => .error e
    | .ok n => .ok ⟨serialize_neighbor n.left, serialize_neighbor n.right⟩
  | _, _ => .ok ⟨none, none⟩

end NeighborsSerializerMixin

/-! ### Basic lemmas about the embedded operations -/

lemma sqlEq_true_iff (a b : Option Nat) : sqlEq a b = true ↔ ∃ x, a = some x ∧ b = some x := by
  cases a with
  | none => simp [sqlEq]
  | some v =>
    cases b with
    | none => simp [sqlEq]
    | some u =>
      simp only [sqlEq, beq_iff_eq, Option.some.injEq]
      constructor
      · intro h
        exact ⟨v, rfl, h.symm⟩
      · rintro ⟨x, h1, h2⟩
        rw [h1, h2]

lemma sqlEq_none_right (a : Option Nat) : sqlEq a none = false := by
  cases a <;> rfl

lemma sqlEq_false_of_ne (a : Option Nat) (x : Nat) (h : a ≠ some x) :
    sqlEq a (some x) = false := by
  cases a with
  | none => rfl
  | some v =>
    simp only [sqlEq, beq_eq_false_iff_ne, ne_eq]
    intro hc
    exact h (by rw [hc])

lemma pointLookup_mem (rows : List Record) (oid : Option Nat) (r : Record)
    (h : pointLookup rows oid = some r) : r ∈ rows ∧ r.id = oid := by
  refine ⟨List.mem_of_find?_eq_some h, ?_⟩
  have := List.find?_some h
  exact beq_iff_eq.mp this

lemma pointLookup_eq_none (rows : List Record) (oid : Option Nat)
    (h : ∀ r ∈ rows, r.id ≠ oid) : pointLookup rows oid = none := by
  refine List.find?_eq_none.mpr ?_
  intro r hr hc
  exact h r hr (beq_iff_eq.mp hc)

lemma pointLookup_none_of_ids_some (rows : List Record)
    (h : ∀ r ∈ rows, (Record.id r).isSome) : pointLookup rows none = none := by
  refine pointLookup_eq_none rows none ?_
  intro r hr hc
  have := h r hr
  rw [hc] at this
  exact Bool.noConfusion this

lemma pointLookup_unique (rows : List Record) (r : Record) (l : Nat) (hid : r.id = some l) :
    (rows.map Record.id).Nodup → r ∈ rows → pointLookup rows (some l) = some r := by
  induction rows with
  | nil => intro _ h; cases h
  | cons x t ih =>
    intro hnodup hmem
    have hx : x.id ∉ t.map Record.id ∧ (t.map Record.id).Nodup := by
      rw [List.map_cons] at hnodup
      exact List.nodup_cons.mp hnodup
    by_cases hxl : x.id = some l
    · have hxr : x = r := by
        rcases List.mem_cons.mp hmem with h | h
        · exact h.symm
        · have hmt : x.id ∈ t.map Record.id := by
            rw [hxl, ← hid]
            exact List.mem_map_of_mem Record.id h
          exact absurd hmt hx.1
      unfold pointLookup
      rw [List.find?_cons_of_pos]
      · rw [hxr]
      · exact beq_iff_eq.mpr hxl
    · have hrt : r ∈ t := by
        rcases List.mem_cons.mp hmem with h | h
        · exact absurd (h ▸ hid) hxl
        · exact h
      unfold pointLookup
      rw [List.find?_cons_of_neg]
      · exact ih hx.2 hrt
      · simp only [beq_iff_eq]
        exact hxl

lemma windowRows_id_mem (rows : List Record) (w : WindowRow) :
    ∀ (p : Option Nat) (n : Nat), w ∈ windowRows p n rows → ∃ r ∈ rows, w.id = r.id := by
  induction rows with
  | nil => intro p n hw; cases hw
  | cons x t ih =>
    intro p n hw
    simp only [windowRows, List.mem_cons] at hw
    rcases hw with h | h
    · exact ⟨x, List.mem_cons_self x t, by rw [h]⟩
    · obtain ⟨r, hr, he⟩ := ih x.id (n + 1) h
      exact ⟨r, List.mem_cons_of_mem x hr, he⟩

/-- Identifier carried to the window row of the first element after a block
of rows: the id of the last row of the block, or the incoming value when
the block is empty. -/
def lastIdD (p : Option Nat) : List Record → Option Nat
  | [] => p
  | r :: rest => lastIdD r.id rest

lemma lastIdD_concat (p : Option Nat) (ys : List Record) (L : Record) :
    lastIdD p (ys ++ [L]) = L.id := by
  induction ys generalizing p with
  | nil => rfl
  | cons y t ih => exact ih y.id

/-! ### Characterization of the windowed query -/

lemma findWindow (T : Record) (tid : Nat) (htid : T.id = some tid) :
    ∀ (pre : List Record) (rest : List Record) (p : Option Nat) (n : Nat),
    some tid ∉ pre.map Record.id →
    (windowRows p n (pre ++ T :: rest)).find? (fun w => sqlEq w.id (some tid)) =
      some ⟨T.id, n + pre.length, lastIdD p pre, rest.head?.bind Record.id⟩ := by
  intro pre
  induction pre with
  | nil =>
    intro rest p n _
    simp only [List.nil_append, windowRows]
    rw [List.find?_cons_of_pos]
    · simp [lastIdD]
    · simp [sqlEq, htid]
  | cons y t ih =>
    intro rest p n hpre
    have hy : y.id ≠ some tid := by
      intro hc
      exact hpre (by rw [List.map_cons, hc]; exact List.mem_cons_self _ _)
    have ht : some tid ∉ t.map Record.id := by
      intro hc
      exact hpre (by rw [List.map_cons]; exact List.mem_cons_of_mem _ hc)
    simp only [List.cons_append, windowRows, List.append_eq]
    rw [List.find?_cons_of_neg]
    · rw [ih rest y.id (n + 1) ht]
      simp only [Option.some.injEq, WindowRow.mk.injEq, List.length_cons, lastIdD]
      refine ⟨trivial, by omega, trivial, trivial⟩
    · simp only [Bool.not_eq_true]
      exact sqlEq_false_of_ne y.id tid hy

lemma lookupCore_none (rowsW rowsL rowsR : List Record) (tid : Option Nat)
    (h : (windowRows none 1 rowsW).find? (fun w => sqlEq w.id tid) = none) :
    lookupCore rowsW rowsL rowsR tid = ⟨none, none⟩ := by
  unfold lookupCore
  rw [h]

lemma lookupCore_found (rowsW rowsL rowsR : List Record) (tid : Option Nat) (w : WindowRow)
    (h : (windowRows none 1 rowsW).find? (fun w => sqlEq w.id tid) = some w) :
    lookupCore rowsW rowsL rowsR tid = ⟨pointLookup rowsL w.prev, pointLookup rowsR w.next⟩ := by
  unfold lookupCore
  rw [h]

lemma lookupCore_mem (rowsW rowsL rowsR : List Record) (tid : Option Nat) (x : Record) :
    ((lookupCore rowsW rowsL rowsR tid).left = some x → x ∈ rowsL) ∧
    ((lookupCore rowsW rowsL rowsR tid).right = some x → x ∈ rowsR) := by
  cases hfind : (windowRows none 1 rowsW).find? (fun w => sqlEq w.id tid) with
  | none =>
    rw [lookupCore_none rowsW rowsL rowsR tid hfind]
    constructor <;> intro h <;> cases h
  | some w =>
    rw [lookupCore_found rowsW rowsL rowsR tid w hfind]
    constructor <;> intro h
    · exact (pointLookup_mem rowsL w.prev x h).1
    · exact (pointLookup_mem rowsR w.next x h).1

/-- Central refinement: on a table slice whose ids are all present and
unique (the primary-key property), the id-based windowed lookup followed by
the id-based point lookups returns exactly the positional neighbors of the
target in the result list. -/
lemma lookupCore_spec (pre rest : List Record) (T : Record) (tid : Nat)
    (htid : T.id = some tid)
    (hsome : ∀ r ∈ pre ++ T :: rest, (Record.id r).isSome)
    (hnodup : ((pre ++ T :: rest).map Record.id).Nodup) :
    lookupCore (pre ++ T :: rest) (pre ++ T :: rest) (pre ++ T :: rest) (some tid) =
      ⟨pre.getLast?, rest.head?⟩ := by
  have hpre : some tid ∉ pre.map Record.id := by
    rw [List.map_append, List.map_cons] at hnodup
    have hd := List.disjoint_of_nodup_append hnodup
    intro hc
    exact hd hc (by rw [← htid]; exact List.mem_cons_self _ _)
  unfold lookupCore
  rw [findWindow T tid htid pre rest none 1 hpre]
  show Neighbor.mk (pointLookup (pre ++ T :: rest) (lastIdD none pre))
      (pointLookup (pre ++ T :: rest) (rest.head?.bind Record.id)) = _
  have hleft : pointLookup (pre ++ T :: rest) (lastIdD none pre) = pre.getLast? := by
    rcases List.eq_nil_or_concat pre with hnil | ⟨ys, L, hconcat⟩
    · subst hnil
      show pointLookup ([] ++ T :: rest) none = none
      exact pointLookup_none_of_ids_some _ hsome
    · rw [List.concat_eq_append] at hconcat
      subst hconcat
      rw [lastIdD_concat, List.getLast?_concat]
      have hLmem : L ∈ (ys ++ [L]) ++ T :: rest :=
        List.mem_append_left _ (List.mem_append_right _ (List.mem_cons_self _ _))
      obtain ⟨l, hl⟩ := Option.isSome_iff_exists.mp (hsome L hLmem)
      rw [hl]
      exact pointLookup_unique _ L l hl hnodup hLmem
  have hright : pointLookup (pre ++ T :: rest) (rest.head?.bind Record.id) = rest.head? := by
    cases rest with
    | nil =>
      show pointLookup (pre ++ [T]) none = none
      exact pointLookup_none_of_ids_some _ (by simpa using hsome)
    | cons R rest2 =>
      have hRmem : R ∈ pre ++ T :: R :: rest2 :=
        List.mem_append_right _ (List.mem_cons_of_mem _ (List.mem_cons_self _ _))
      obtain ⟨ri, hri⟩ := Option.isSome_iff_exists.mp (hsome R hRmem)
      show pointLookup (pre ++ T :: R :: rest2) (Record.id R) = some R
      rw [hri]
      exact pointLookup_unique _ R ri hri hnodup hRmem
  rw [hleft, hright]

/-! ### Lemmas about queryset narrowing and the fallback -/

lemma resultsSetFor_none (pid : Nat) :
    resultsSetFor none pid = defaultQuerySet.filterProject pid := rfl

lemma resultsSetFor_some_of_not_empty (C : QuerySet) (pid : Nat) (h : C.staticEmpty = false) :
    resultsSetFor (some C) pid = C.filterProject pid := by
  unfold resultsSetFor QuerySet.filterProject
  simp [h]

lemma resultsSetFor_some_of_empty (C : QuerySet) (pid : Nat) (h : C.staticEmpty = true) :
    resultsSetFor (some C) pid = defaultQuerySet.filterProject pid := by
  unfold resultsSetFor QuerySet.filterProject
  simp [h]

lemma resultsSetFor_is_filterProject (rso : Option QuerySet) (pid : Nat) :
    ∃ qs : QuerySet, resultsSetFor rso pid = qs.filterProject pid := by
  cases rso with
  | none => exact ⟨defaultQuerySet, rfl⟩
  | some s =>
    cases hse : s.staticEmpty with
    | true => exact ⟨defaultQuerySet, resultsSetFor_some_of_empty s pid hse⟩
    | false => exact ⟨s, resultsSetFor_some_of_not_empty s pid hse⟩

lemma mem_run (qs : QuerySet) (db : List Record) (r : Record) :
    r ∈ qs.run db ↔ r ∈ db ∧ qs.filt r = true := by
  simp [QuerySet.run, List.mem_filter]

lemma filterProject_project (qs : QuerySet) (pid : Nat) (r : Record)
    (h : (qs.filterProject pid).filt r = true) : r.projectId = some pid := by
  have hb : (r.projectId == some pid) = true := by
    unfold QuerySet.filterProject at h
    simp only [Bool.and_eq_true] at h
    exact h.2
  exact beq_iff_eq.mp hb

lemma mem_run_resultsSetFor_project (rso : Option QuerySet) (pid : Nat) (db : List Record)
    (r : Record) (h : r ∈ (resultsSetFor rso pid).run db) : r.projectId = some pid := by
  obtain ⟨qs, hqs⟩ := resultsSetFor_is_filterProject rso pid
  rw [hqs] at h
  exact filterProject_project qs pid r ((mem_run _ db r).mp h).2

lemma run_default_filterProject (pid : Nat) (db : List Record) :
    (defaultQuerySet.filterProject pid).run db =
      db.filter (fun r => r.projectId == some pid) := by
  unfold QuerySet.run defaultQuerySet QuerySet.filterProject
  simp

lemma run_resultsSetFor_not_empty (C : QuerySet) (pid : Nat) (db : List Record)
    (h : C.staticEmpty = false) :
    (resultsSetFor (some C) pid).run db =
      db.filter (fun r => C.filt r && (r.projectId == some pid)) := by
  rw [resultsSetFor_some_of_not_empty C pid h]
  rfl

lemma run_resultsSetFor_empty (C : QuerySet) (pid : Nat) (db : List Record)
    (h : C.staticEmpty = true) :
    (resultsSetFor (some C) pid).run db =
      db.filter (fun r => r.projectId == some pid) := by
  rw [resultsSetFor_some_of_empty C pid h]
  exact run_default_filterProject pid db

lemma wf_filter_some (db : List Record) (p : Record → Bool)
    (h : ∀ r ∈ db, (Record.id r).isSome) : ∀ r ∈ db.filter p, (Record.id r).isSome :=
  fun r hr => h r (List.mem_of_mem_filter hr)

lemma wf_filter_nodup (db : List Record) (p : Record → Bool)
    (h : (db.map Record.id).Nodup) : ((db.filter p).map Record.id).Nodup :=
  h.sublist ((List.filter_sublist db).map Record.id)

/-! ### Evaluation lemmas for the entry points -/

lemma get_neighborsAt_ok (dbW dbL dbR : List Record) (obj : Record)
    (rso : Option QuerySet) (pid : Nat) (hpid : obj.projectId = some pid) :
    get_neighborsAt dbW dbL dbR obj rso =
      .ok (lookupCore ((resultsSetFor rso pid).run dbW) ((resultsSetFor rso pid).run dbL)
            ((resultsSetFor rso pid).run dbR) obj.id) := by
  unfold get_neighborsAt
  rw [hpid]

lemma get_neighbors_ok (db : List Record) (obj : Record) (rso : Option QuerySet)
    (pid : Nat) (hpid : obj.projectId = some pid) :
    get_neighbors db obj rso =
      .ok (lookupCore ((resultsSetFor rso pid).run db) ((resultsSetFor rso pid).run db)
            ((resultsSetFor rso pid).run db) obj.id) :=
  get_neighborsAt_ok db db db obj rso pid hpid

/-! ### Concrete fixtures used by witnesses and counterexamples -/

/-- Persisted record with id 1 in project 1. -/
def recA : Record := ⟨some 1, some 1, 1, ""⟩

/-- Persisted record with id 2 in project 1, used as target. -/
def recT : Record := ⟨some 2, some 1, 2, ""⟩

/-- Caller queryset with no extra filter. -/
def allQS : QuerySet := ⟨fun _ => true, false⟩

/-- Caller queryset whose filter is statically unsatisfiable (the compiler
raises `EmptyResultSet` for it). -/
def emptyQS : QuerySet := ⟨fun _ => false, true⟩

/-- Caller queryset keeping only the record with `ref = 1`. -/
def onlyAQS : QuerySet := ⟨fun r => r.ref == 1, false⟩

/-! ### Claims -/

/-- C7: for every record whose project reference is null, `get_neighbors`
raises (`AttributeError` from evaluating `obj.project.id`) instead of
returning a neighbor pair, whatever the collection. -/
theorem claim_C7 (db : List Record) (rso : Option QuerySet) (T : Record)
    (h : T.projectId = none) :
    get_neighbors db T rso = .error .attributeError := by
  unfold get_neighbors get_neighborsAt
  rw [h]

theorem claim_C7_witness :
    (⟨some 1, none, 1, ""⟩ : Record).projectId = none ∧
    get_neighbors [recA] ⟨some 1, none, 1, ""⟩ none = .error .attributeError :=
  ⟨rfl, claim_C7 [recA] none ⟨some 1, none, 1, ""⟩ rfl⟩

/-- C10: a target with a project but a null (non-persisted) identifier is
not rejected: the windowed query's final bound parameter is `NULL`, no row
satisfies `id = NULL`, and the function returns `(None, None)`. -/
theorem claim_C10 (db : List Record) (rso : Option QuerySet) (T : Record) (pid : Nat)
    (hpid : T.projectId = some pid) (hid : T.id = none) :
    get_neighbors db T rso = .ok ⟨none, none⟩ := by
  rw [get_neighbors_ok db T rso pid hpid, hid]
  congr 1
  apply lookupCore_none
  refine List.find?_eq_none.mpr ?_
  intro w _
  simp [sqlEq_none_right]

theorem claim_C10_witness :
    (⟨none, some 1, 5, ""⟩ : Record).projectId = some 1 ∧
    (⟨none, some 1, 5, ""⟩ : Record).id = none ∧
    get_neighbors [recA] ⟨none, some 1, 5, ""⟩ none = .ok ⟨none, none⟩ :=
  ⟨rfl, rfl, claim_C10 [recA] none ⟨none, some 1, 5, ""⟩ 1 rfl rfl⟩

/-- C8: when the serialization context lacks the ambient view or the
ambient request, the mixin reports both neighbors as `None` without
resolving, regardless of the record's actual neighbors. -/
theorem claim_C8 (db : List Record) (ctx : SerializerContext) (obj : Record)
    (h : ctx.view = none ∨ ctx.request = none) :
    NeighborsSerializerMixin.get_neighbors db ctx obj = .ok ⟨none, none⟩ := by
  obtain ⟨cv, cr⟩ := ctx
  change cv = none ∨ cr = none at h
  unfold NeighborsSerializerMixin.get_neighbors
  rcases h with h | h
  · subst h
    cases cr <;> rfl
  · subst h
    cases cv <;> rfl

theorem claim_C8_witness :
    NeighborsSerializerMixin.get_neighbors [recA, recT] ⟨none, some ⟨()⟩⟩ recT =
      .ok ⟨none, none⟩ :=
  claim_C8 [recA, recT] ⟨none, some ⟨()⟩⟩ recT (Or.inl rfl)

/-- C3: on every execution path the lookup is restricted to rows whose
project identifier equals the target's, so any returned neighbor belongs
to the target's project — with a caller collection, with the default
collection, and on the fallback path alike. -/
theorem claim_C3 (db : List Record) (rso : Option QuerySet) (T : Record) (res : Neighbor)
    (hres : get_neighbors db T rso = .ok res) :
    ∀ r : Record, res.left = some r ∨ res.right = some r → r.projectId = T.projectId := by
  cases hpid : T.projectId with
  | none =>
    unfold get_neighbors get_neighborsAt at hres
    rw [hpid] at hres
    cases hres
  | some pid =>
    rw [get_neighbors_ok db T rso pid hpid] at hres
    have h2 := Except.ok.inj hres
    intro r hr
    rcases hr with h | h
    · exact mem_run_resultsSetFor_project rso pid db r
        ((lookupCore_mem _ _ _ T.id r).1 (by rw [h2]; exact h))
    · exact mem_run_resultsSetFor_project rso pid db r
        ((lookupCore_mem _ _ _ T.id r).2 (by rw [h2]; exact h))

theorem claim_C3_witness : recA.projectId = recT.projectId :=
  claim_C3 [recA, recT] none recT ⟨some recA, none⟩ rfl recA (Or.inl rfl)

/-- C1: for a target present in the caller's collection, any non-`None`
component of the result is an element of the collection (it satisfies the
collection's filter and lies in the table) and shares the target's project. -/
theorem claim_C1 (db : List Record) (C : QuerySet) (T : Record) (pid : Nat)
    (hstat : C.staticEmpty = true → ∀ r ∈ db, C.filt r = false)
    (hpid : T.projectId = some pid)
    (hTdb : T ∈ db) (hTfilt : C.filt T = true)
    (res : Neighbor) (hres : get_neighbors db T (some C) = .ok res) :
    (∀ l, res.left = some l → l ∈ db ∧ C.filt l = true ∧ l.projectId = T.projectId) ∧
    (∀ r, res.right = some r → r ∈ db ∧ C.filt r = true ∧ r.projectId = T.projectId) := by
  have hse : C.staticEmpty = false := by
    cases h : C.staticEmpty with
    | false => rfl
    | true =>
      have hf := hstat h T hTdb
      rw [hTfilt] at hf
      exact Bool.noConfusion hf
  rw [get_neighbors_ok db T (some C) pid hpid] at hres
  have h2 := Except.ok.inj hres
  have hrows := run_resultsSetFor_not_empty C pid db hse
  constructor
  · intro l hl
    have hmem : l ∈ (resultsSetFor (some C) pid).run db :=
      (lookupCore_mem _ _ _ T.id l).1 (by rw [h2]; exact hl)
    rw [hrows, List.mem_filter] at hmem
    obtain ⟨hdb, hfl⟩ := hmem
    simp only [Bool.and_eq_true] at hfl
    exact ⟨hdb, hfl.1, by rw [hpid]; exact beq_iff_eq.mp hfl.2⟩
  · intro r hr
    have hmem : r ∈ (resultsSetFor (some C) pid).run db :=
      (lookupCore_mem _ _ _ T.id r).2 (by rw [h2]; exact hr)
    rw [hrows, List.mem_filter] at hmem
    obtain ⟨hdb, hfl⟩ := hmem
    simp only [Bool.and_eq_true] at hfl
    exact ⟨hdb, hfl.1, by rw [hpid]; exact beq_iff_eq.mp hfl.2⟩

theorem claim_C1_witness :
    (∀ l, (Neighbor.mk (some recA) none).left = some l →
        l ∈ [recA, recT] ∧ allQS.filt l = true ∧ l.projectId = recT.projectId) ∧
    (∀ r, (Neighbor.mk (some recA) none).right = some r →
        r ∈ [recA, recT] ∧ allQS.filt r = true ∧ r.projectId = recT.projectId) :=
  claim_C1 [recA, recT] allQS recT 1 (fun h => absurd h (by decide)) rfl
    (by decide) rfl ⟨some recA, none⟩ rfl

/-- C2: when the narrowed collection is statically empty, the call behaves
exactly like a call with no caller collection (plain project scope), and
when the target is a persisted row of that project the lookup succeeds and
returns the target's positional neighbors in the project-scoped list. -/
theorem claim_C2 (db : List Record) (C : QuerySet) (T : Record) (pid tid : Nat)
    (hwf1 : ∀ r ∈ db, (Record.id r).isSome)
    (hwf2 : (db.map Record.id).Nodup)
    (hpid : T.projectId = some pid) (htid : T.id = some tid)
    (hse : C.staticEmpty = true) (hmem : T ∈ db) :
    get_neighbors db T (some C) = get_neighbors db T none ∧
    ∃ pre rest, db.filter (fun r => r.projectId == some pid) = pre ++ T :: rest ∧
      get_neighbors db T (some C) = .ok ⟨pre.getLast?, rest.head?⟩ := by
  have hrs : resultsSetFor (some C) pid = resultsSetFor none pid := by
    rw [resultsSetFor_some_of_empty C pid hse, resultsSetFor_none]
  constructor
  · rw [get_neighbors_ok db T (some C) pid hpid, get_neighbors_ok db T none pid hpid, hrs]
  · have hTproj : T ∈ db.filter (fun r => r.projectId == some pid) :=
      List.mem_filter.mpr ⟨hmem, beq_iff_eq.mpr hpid⟩
    obtain ⟨pre, rest, hsplit⟩ := List.append_of_mem hTproj
    refine ⟨pre, rest, hsplit, ?_⟩
    rw [get_neighbors_ok db T (some C) pid hpid, run_resultsSetFor_empty C pid db hse,
      htid, hsplit]
    congr 1
    exact lookupCore_spec pre rest T tid htid
      (by rw [← hsplit]; exact wf_filter_some db _ hwf1)
      (by rw [← hsplit]; exact wf_filter_nodup db _ hwf2)

theorem claim_C2_witness :
    (get_neighbors [recA, recT] recT (some emptyQS) = get_neighbors [recA, recT] recT none ∧
      ∃ pre rest, [recA, recT].filter (fun r => r.projectId == some 1) = pre ++ recT :: rest ∧
        get_neighbors [recA, recT] recT (some emptyQS) = .ok ⟨pre.getLast?, rest.head?⟩) :=
  claim_C2 [recA, recT] emptyQS recT 1 2 (by decide) (by decide) rfl rfl rfl (by decide)

/-- C4 counterexample: with a statically-empty caller collection the target
is not present in the project-narrowed collection (it is empty), yet the
fallback path finds the target among the plain project rows and returns a
non-`(None, None)` neighbor pair. -/
theorem claim_C4_counterexample :
    ([recA, recT].filter (fun r => emptyQS.filt r && (r.projectId == some 1))) = [] ∧
    get_neighbors [recA, recT] recT (some emptyQS) = .ok ⟨some recA, none⟩ ∧
    ¬ get_neighbors [recA, recT] recT (some emptyQS) = .ok ⟨none, none⟩ := by
  refine ⟨rfl, rfl, ?_⟩
  intro h
  rw [show get_neighbors [recA, recT] recT (some emptyQS) = .ok ⟨some recA, none⟩ from rfl] at h
  simp [Neighbor.mk.injEq] at h

/-- C4 amended: provided the narrowed collection is not statically empty
(so the fallback is not taken), a target absent from the project-narrowed
collection makes the windowed query match no row and the function returns
`(None, None)`. -/
theorem claim_C4_amended (db : List Record) (C : QuerySet) (T : Record) (pid : Nat)
    (hpid : T.projectId = some pid) (hse : C.staticEmpty = false)
    (habsent : ∀ r ∈ db, C.filt r = true → r.projectId = some pid → r.id ≠ T.id) :
    get_neighbors db T (some C) = .ok ⟨none, none⟩ := by
  rw [get_neighbors_ok db T (some C) pid hpid]
  congr 1
  apply lookupCore_none
  refine List.find?_eq_none.mpr ?_
  intro w hw hc
  obtain ⟨x, hwx, hTx⟩ := (sqlEq_true_iff _ _).mp hc
  obtain ⟨r, hrmem, hrid⟩ := windowRows_id_mem _ w none 1 hw
  rw [run_resultsSetFor_not_empty C pid db hse, List.mem_filter] at hrmem
  obtain ⟨hrdb, hrf⟩ := hrmem
  simp only [Bool.and_eq_true] at hrf
  exact habsent r hrdb hrf.1 (beq_iff_eq.mp hrf.2) (by rw [← hrid, hwx, hTx])

theorem claim_C4_amended_witness :
    get_neighbors [recA, recT] recT (some onlyAQS) = .ok ⟨none, none⟩ :=
  claim_C4_amended [recA, recT] onlyAQS recT 1 rfl rfl (by decide)

/-- C5: boundary behavior for a target present in the collection: first
element has no left neighbor, last element has no right neighbor, and a
singleton collection yields `(None, None)`. -/
theorem claim_C5 (db : List Record) (C : QuerySet) (T : Record) (pid : Nat)
    (hwf1 : ∀ r ∈ db, (Record.id r).isSome)
    (hwf2 : (db.map Record.id).Nodup)
    (hstat : C.staticEmpty = true → ∀ r ∈ db, C.filt r = false)
    (hpid : T.projectId = some pid)
    (hTdb : T ∈ db) (hTfilt : C.filt T = true) :
    ((∃ tl, db.filter C.filt = T :: tl) →
      ∃ res, get_neighbors db T (some C) = .ok res ∧ res.left = none) ∧
    ((∃ ys, db.filter C.filt = ys ++ [T]) →
      ∃ res, get_neighbors db T (some C) = .ok res ∧ res.right = none) ∧
    (db.filter C.filt = [T] → get_neighbors db T (some C) = .ok ⟨none, none⟩) := by
  have hse : C.staticEmpty = false := by
    cases h : C.staticEmpty with
    | false => rfl
    | true =>
      have hf := hstat h T hTdb
      rw [hTfilt] at hf
      exact Bool.noConfusion hf
  obtain ⟨tid, htid⟩ := Option.isSome_iff_exists.mp (hwf1 T hTdb)
  have hprojT : (T.projectId == some pid) = true := beq_iff_eq.mpr hpid
  have hcomm : (resultsSetFor (some C) pid).run db =
      (db.filter C.filt).filter (fun r => r.projectId == some pid) := by
    rw [run_resultsSetFor_not_empty C pid db hse, List.filter_filter]
    refine List.filter_congr ?_
    intro a _
    exact Bool.and_comm _ _
  have hsomerows : ∀ r ∈ (resultsSetFor (some C) pid).run db, (Record.id r).isSome := by
    rw [run_resultsSetFor_not_empty C pid db hse]
    exact wf_filter_some db _ hwf1
  have hnoduprows : (((resultsSetFor (some C) pid).run db).map Record.id).Nodup := by
    rw [run_resultsSetFor_not_empty C pid db hse]
    exact wf_filter_nodup db _ hwf2
  refine ⟨?_, ?_, ?_⟩
  · rintro ⟨tl, htl⟩
    have hrows : (resultsSetFor (some C) pid).run db =
        [] ++ T :: tl.filter (fun r => r.projectId == some pid) := by
      rw [hcomm, htl]
      simp [List.filter_cons, hprojT]
    refine ⟨⟨([] : List Record).getLast?,
      (tl.filter (fun r => r.projectId == some pid)).head?⟩, ?_, rfl⟩
    rw [get_neighbors_ok db T (some C) pid hpid, htid, hrows]
    congr 1
    exact lookupCore_spec [] _ T tid htid
      (by rw [← hrows]; exact hsomerows)
      (by rw [← hrows]; exact hnoduprows)
  · rintro ⟨ys, hys⟩
    have hrows : (resultsSetFor (some C) pid).run db =
        ys.filter (fun r => r.projectId == some pid) ++ T :: [] := by
      rw [hcomm, hys, List.filter_append]
      simp [List.filter_cons, hprojT]
    refine ⟨⟨(ys.filter (fun r => r.projectId == some pid)).getLast?,
      ([] : List Record).head?⟩, ?_, rfl⟩
    rw [get_neighbors_ok db T (some C) pid hpid, htid, hrows]
    congr 1
    exact lookupCore_spec _ [] T tid htid
      (by rw [← hrows]; exact hsomerows)
      (by rw [← hrows]; exact hnoduprows)
  · intro hsing
    have hrows : (resultsSetFor (some C) pid).run db = [] ++ T :: [] := by
      rw [hcomm, hsing]
      simp [List.filter_cons, hprojT]
    rw [get_neighbors_ok db T (some C) pid hpid, htid, hrows]
    congr 1
    exact lookupCore_spec [] [] T tid htid
      (by rw [← hrows]; exact hsomerows)
      (by rw [← hrows]; exact hnoduprows)

theorem claim_C5_witness :
    ((∃ tl, [recA, recT].filter allQS.filt = recA :: tl) →
      ∃ res, get_neighbors [recA, recT] recA (some allQS) = .ok res ∧ res.left = none) ∧
    ((∃ ys, [recA, recT].filter allQS.filt = ys ++ [recA]) →
      ∃ res, get_neighbors [recA, recT] recA (some allQS) = .ok res ∧ res.right = none) ∧
    ([recA, recT].filter allQS.filt = [recA] →
      get_neighbors [recA, recT] recA (some allQS) = .ok ⟨none, none⟩) :=
  claim_C5 [recA, recT] allQS recA 1 (by decide) (by decide)
    (fun h => absurd h (by decide)) rfl (by decide) rfl

/-- C6: once the windowed query (run against the first database state) has
matched the target, each neighbor id is looked up independently; an id that
no longer resolves in the collection at lookup time yields `None` for that
side only, with no error, and the other side is the ordinary lookup. -/
theorem claim_C6 (dbW dbL dbR : List Record) (C : QuerySet) (T : Record) (pid : Nat)
    (hpid : T.projectId = some pid) (w : WindowRow)
    (hw : (windowRows none 1 ((resultsSetFor (some C) pid).run dbW)).find?
        (fun x => sqlEq x.id T.id) = some w) :
    ∃ n : Neighbor, get_neighborsAt dbW dbL dbR T (some C) = .ok n ∧
      n.left = pointLookup ((resultsSetFor (some C) pid).run dbL) w.prev ∧
      n.right = pointLookup ((resultsSetFor (some C) pid).run dbR) w.next ∧
      ((∀ r ∈ (resultsSetFor (some C) pid).run dbL, r.id ≠ w.prev) → n.left = none) ∧
      ((∀ r ∈ (resultsSetFor (some C) pid).run dbR, r.id ≠ w.next) → n.right = none) := by
  refine ⟨⟨pointLookup ((resultsSetFor (some C) pid).run dbL) w.prev,
      pointLookup ((resultsSetFor (some C) pid).run dbR) w.next⟩, ?_, rfl, rfl, ?_, ?_⟩
  · rw [get_neighborsAt_ok dbW dbL dbR T (some C) pid hpid]
    congr 1
    exact lookupCore_found _ _ _ T.id w hw
  · intro hgone
    exact pointLookup_eq_none _ _ hgone
  · intro hgone
    exact pointLookup_eq_none _ _ hgone

theorem claim_C6_witness :
    ∃ n : Neighbor,
      get_neighborsAt [recA, recT] [recT] [recA, recT] recT (some allQS) = .ok n ∧
      n.left = none ∧ n.right = none := by
  obtain ⟨n, hok, hL0, hR0, hL, hR⟩ :=
    claim_C6 [recA, recT] [recT] [recA, recT] allQS recT 1 rfl ⟨some 2, 2, some 1, none⟩ rfl
  exact ⟨n, hok, hL (by decide), hR (by decide)⟩

/-- C9: when the statically-empty fallback is taken, the per-side point
lookups run against the fallback project-only collection (the reassigned
`results_set`), every returned neighbor is in the target's project, and a
returned neighbor can fail the caller's original filter. -/
theorem claim_C9 (db : List Record) (C : QuerySet) (T : Record) (pid : Nat)
    (hpid : T.projectId = some pid) (hse : C.staticEmpty = true) :
    get_neighbors db T (some C) =
      .ok (lookupCore (db.filter (fun r => r.projectId == some pid))
            (db.filter (fun r => r.projectId == some pid))
            (db.filter (fun r => r.projectId == some pid)) T.id) ∧
    (∀ res, get_neighbors db T (some C) = .ok res →
      ∀ r, res.left = some r ∨ res.right = some r → r.projectId = some pid) ∧
    (∃ (db0 : List Record) (C0 : QuerySet) (T0 : Record) (res0 : Neighbor) (r0 : Record),
      C0.staticEmpty = true ∧ get_neighbors db0 T0 (some C0) = .ok res0 ∧
      res0.left = some r0 ∧ C0.filt r0 = false ∧ r0.projectId = T0.projectId) := by
  refine ⟨?_, ?_, ?_⟩
  · rw [get_neighbors_ok db T (some C) pid hpid, run_resultsSetFor_empty C pid db hse]
  · intro res hres r hr
    rw [get_neighbors_ok db T (some C) pid hpid] at hres
    have h2 := Except.ok.inj hres
    rcases hr with h | h
    · exact mem_run_resultsSetFor_project (some C) pid db r
        ((lookupCore_mem _ _ _ T.id r).1 (by rw [h2]; exact h))
    · exact mem_run_resultsSetFor_project (some C) pid db r
        ((lookupCore_mem _ _ _ T.id r).2 (by rw [h2]; exact h))
  · exact ⟨[recA, recT], emptyQS, recT, ⟨some recA, none⟩, recA, rfl, rfl, rfl, rfl, rfl⟩

theorem claim_C9_witness :
    get_neighbors [recA, recT] recT (some emptyQS) =
      .ok (lookupCore ([recA, recT].filter (fun r => r.projectId == some 1))
            ([recA, recT].filter (fun r => r.projectId == some 1))
            ([recA, recT].filter (fun r => r.projectId == some 1)) recT.id) :=
  (claim_C9 [recA, recT] emptyQS recT 1 rfl rfl).1
